import Mathlib

/-!
Verification development for the `idroi` OMERO CLI plugin
(`src/omero/plugins/idroi.py`): a shallow embedding of the plugin's data
model and of the functions `_mapImagePositionToId`,
`_mapImageNumberToPosition`, `_saveROIs`, `importFile` and `process`,
together with theorems settling the specification's claims about them.

Conventions of the embedding:
- Python dicts are association lists with insert-overwrite semantics
  (`dictInsert` / `dictLookup`), preserving insertion order as Python does.
- Python exceptions are `Option`/explicit failure flags: a function that can
  raise returns `none` where the Python code would propagate an exception.
- Remote services are oracles: `getFails i` says whether
  `queryService.get("Image", i)` raises, `saveFails i` whether
  `updateService.saveCollection` raises for the batch of image `i`.
- HDF5 floats are modelled by `Int`: the code copies coordinates verbatim and
  performs no arithmetic on them, so any carrier is faithful.
- stdout prints are modelled as a list of `Event`s; pytables file-handle
  operations as a list of `H5Op`s.
-/

namespace IDROI

/-- One entry of the HDF5 `/Images` table: the columns the code reads
(`ImageNumber`, `Image_Metadata_PlateID`, `Image_Metadata_CPD_WELL_POSITION`,
`Image_Metadata_Site`). -/
structure ImagesRow where
  imageNumber : Nat
  plateId : String
  well : String
  field : Nat
deriving DecidableEq

/-- One entry of the HDF5 `/Objects` table: the `ImageNumber` foreign key and
the three centroid column pairs the code reads. -/
structure ObjectsRow where
  imageNumber : Nat
  nucleiX : Int
  nucleiY : Int
  cellsX : Int
  cellsY : Int
  cytoX : Int
  cytoY : Int
deriving DecidableEq

/-- The HDF5 file: the two tables plus whether `/Objects` already has an index
on its `ImageNumber` column (pytables persists a created index in the file). -/
structure H5File where
  images : List ImagesRow
  objects : List ObjectsRow
  imageNumberIndexed : Bool
deriving DecidableEq

/-- Python-dict insertion: overwrite the value at an existing key in place,
otherwise append the new binding at the end. -/
def dictInsert {α β : Type} [DecidableEq α] : List (α × β) → α → β → List (α × β)
  | [], k, v => [(k, v)]
  | (k', v') :: rest, k, v =>
    if k' = k then (k, v) :: rest else (k', v') :: dictInsert rest k v

/-- Python-dict lookup. -/
def dictLookup {α β : Type} [DecidableEq α] : List (α × β) → α → Option β
  | [], _ => none
  | (k', v') :: rest, k => if k' = k then some v' else dictLookup rest k

/-- Does `sep` occur at the head of `cs`? -/
def listStartsWith : List Char → List Char → Bool
  | [], _ => true
  | _ :: _, [] => false
  | p :: ps, c :: cs => p == c && listStartsWith ps cs

/-- Split at the first occurrence of `sep`, returning the (possibly empty)
part before it and the part after it; `none` when `sep` does not occur. -/
def splitAtFirst (sep : List Char) : List Char → Option (List Char × List Char)
  | [] => none
  | c :: rest =>
    if listStartsWith sep (c :: rest) then some ([], (c :: rest).drop sep.length)
    else
      match splitAtFirst sep rest with
      | some (l, r) => some (c :: l, r)
      | none => none

/-- Model of `parse("{} [Well {}, Field {}]", imgName)` from the `parse`
library: the pattern anchors the whole string, each `{}` captures a non-empty
run non-greedily, so the plate is everything before the first `" [Well "`, the
well everything before the next `", Field "`, and the field everything up to a
final `"]"`. Returns `none` where `parse` returns `None`. -/
def parseImageName (s : String) : Option (String × String × String) :=
  match splitAtFirst " [Well ".toList s.toList with
  | some (plate, rest) =>
    match splitAtFirst ", Field ".toList rest with
    | some (well, rest2) =>
      match rest2.reverse with
      | ']' :: f :: fieldRev =>
        match plate, well with
        | [], _ => none
        | _, [] => none
        | _ :: _, _ :: _ =>
          some (String.mk plate, String.mk well, String.mk ((f :: fieldRev).reverse))
      | _ => none
    | none => none
  | none => none

/-- Format string `"%s | %s | %s" % (p, w, f)` for the Position Key. -/
def posKeyFmt (p w f : String) : String :=
  p ++ " | " ++ w ++ " | " ++ f

/-- Digit-run accumulator for `int(...)`. -/
def digitsToNatAux : List Char → Nat → Option Nat
  | [], acc => some acc
  | c :: rest, acc =>
    if c.isDigit then digitsToNatAux rest (acc * 10 + (c.toNat - '0'.toNat))
    else none

/-- Model of Python `int(s)` on the digit-run domain the spec declares as the
input precondition: `none` (a raised `ValueError`) on the empty string or any
non-digit character. -/
def digitsToNat : List Char → Option Nat
  | [] => none
  | c :: rest => digitsToNatAux (c :: rest) 0

/-- The numeric value of a digit run, most significant digit first. -/
def digitsVal (ds : List Char) : Nat :=
  ds.foldl (fun acc c => acc * 10 + (c.toNat - '0'.toNat)) 0

/-- The well-code normalization of `_mapImageNumberToPosition`:
`wella = well[0]; wellb = "%d" % int(well[1:]); well = wella + wellb`.
`none` models the exception raised on an empty code or non-numeric suffix. -/
def normalizeWell (w : String) : Option String :=
  match w.toList with
  | [] => none
  | a :: rest => (digitsToNat rest).map (fun n => String.mk [a] ++ toString n)

/-- The Position Key the resolver (`_mapImagePositionToId`) derives from one
remote display name: parse the fixed grammar, then format the three captures
verbatim — no well normalization happens on this path. -/
def resolverPosKey (name : String) : Option String :=
  (parseImageName name).map (fun t => posKeyFmt t.1 t.2.1 t.2.2)

/-- The Position Key `_mapImageNumberToPosition` derives from one HDF5
`/Images` row: plate id, zero-stripped well, `"%s"`-formatted field. -/
def hdf5PosKey (row : ImagesRow) : Option String :=
  (normalizeWell row.well).map
    (fun w => posKeyFmt row.plateId w (toString row.field))

/-- The resolver loop of `_mapImagePositionToId`: fold the `(id, name)`
projection rows into `imgdic`, overwriting duplicate keys; `none` models the
`TypeError` raised by `p[0]` when `parse` returns `None`. -/
def _mapImagePositionToId : List (Nat × String) → List (String × Nat) →
    Option (List (String × Nat))
  | [], d => some d
  | (imgId, imgName) :: rest, d =>
    match parseImageName imgName with
    | some (p, w, f) =>
      _mapImagePositionToId rest (dictInsert d (posKeyFmt p w f) imgId)
    | none => none

/-- The `/Images` scan of `_mapImageNumberToPosition`: fold the rows into
`imgdict`, keyed by `ImageNumber`; `none` models a raised exception from a
malformed well code. -/
def _mapImageNumberToPosition : List ImagesRow → List (Nat × String) →
    Option (List (Nat × String))
  | [], d => some d
  | row :: rest, d =>
    match normalizeWell row.well with
    | some w =>
      _mapImageNumberToPosition rest
        (dictInsert d row.imageNumber (posKeyFmt row.plateId w (toString row.field)))
    | none => none

/-- Wrapper for `_mapImageNumberToPosition` as called: accumulator starts empty. -/
def mapImageNumberToPosition (rows : List ImagesRow) : Option (List (Nat × String)) :=
  _mapImageNumberToPosition rows []

/-- An OMERO point shape as the code populates it: `point.x`, `point.y`,
`point.theZ = rint(0)`, `point.theT = rint(0)`, `point.textValue`. -/
structure Shape where
  x : Int
  y : Int
  theZ : Nat
  theT : Nat
  textValue : String
deriving DecidableEq

/-- An OMERO ROI: the shapes added via `roi.addShape(...)`. -/
structure Roi where
  shapes : List Shape
deriving DecidableEq

/-- The body of `importFile`'s inner `objs.where(...)` loop: for one matching
`/Objects` row, append a nucleus ROI, a cell ROI and a cytoplasm ROI (each a
fresh `RoiI` holding one `PointI`) to the accumulated `rois` list. -/
def processObjectRows : List ObjectsRow → List Roi → List Roi
  | [], rois => rois
  | row :: rest, rois =>
    let nucleus : Roi := ⟨[⟨row.nucleiX, row.nucleiY, 0, 0, "Nucleus"⟩]⟩
    let cell : Roi := ⟨[⟨row.cellsX, row.cellsY, 0, 0, "Cell"⟩]⟩
    let cytoplasm : Roi := ⟨[⟨row.cytoX, row.cytoY, 0, 0, "Cytoplasm"⟩]⟩
    processObjectRows rest (rois ++ [nucleus, cell, cytoplasm])

/-- The ROIs `importFile` builds for one image number: scan the rows selected
by `objs.where(ImageNumber == imgNumber)` starting from an empty list. -/
def roisForImage (objs : List ObjectsRow) (imgNumber : Nat) : List Roi :=
  processObjectRows (objs.filter (fun r => r.imageNumber == imgNumber)) []

/-- The three ROIs one `/Objects` row yields, in source order: nucleus, cell,
cytoplasm, each one point shape at z = 0, t = 0 with the row's coordinates. -/
def rowRois (row : ObjectsRow) : List Roi :=
  [⟨[⟨row.nucleiX, row.nucleiY, 0, 0, "Nucleus"⟩]⟩,
   ⟨[⟨row.cellsX, row.cellsY, 0, 0, "Cell"⟩]⟩,
   ⟨[⟨row.cytoX, row.cytoY, 0, 0, "Cytoplasm"⟩]⟩]

/-- One stdout print of the import run (the ETR timing print is omitted:
wall-clock time is outside the embedding). -/
inductive Event where
  | saved (count : Nat) (imgId : Nat)
  | dryRunSave (count : Nat) (imgId : Nat)
  | saveWarning (imgId : Nat)
  | unmappedWarning (pos : String)
  | progress (done : Nat) (total : Nat)
deriving DecidableEq

/-- Which image id an event's message names, if any. -/
def eventImgId : Event → Option Nat
  | .saved _ i => some i
  | .dryRunSave _ i => some i
  | .saveWarning i => some i
  | .unmappedWarning _ => none
  | .progress _ _ => none

/-- Returns `true` when the event does not name image `k`. -/
def eventNotForImage (k : Nat) (e : Event) : Bool :=
  match eventImgId e with
  | some i => !(i == k)
  | none => true

/-- The `(count, imgId)` printed by a `Saved`/`Dry run` line, if any. -/
def savedCount : Event → Option (Nat × Nat)
  | .saved n i => some (n, i)
  | .dryRunSave n i => some (n, i)
  | _ => none

/-- What one `_saveROIs` call did: how many times it invoked
`updateService.saveCollection`, and what it printed. -/
structure SaveResult where
  saveCalls : Nat
  events : List Event
deriving DecidableEq

/-- Model of `_saveROIs`: fetch the image (`getFails` models `queryService.get`
raising), attach the ROIs, then either call `saveCollection` (real run;
`saveFails` models the call raising after being made) or print the dry-run
line; the bare `except` turns any raise into a single warning print. -/
def _saveROIs (rois : List Roi) (imgId : Nat) (getFails saveFails : Bool)
    (hasUpdateService : Bool) : SaveResult :=
  if getFails then ⟨0, [.saveWarning imgId]⟩
  else if hasUpdateService then
    if saveFails then ⟨1, [.saveWarning imgId]⟩
    else ⟨1, [.saved rois.length imgId]⟩
  else ⟨0, [.dryRunSave rois.length imgId]⟩

/-- The observable outcome of the `for imgNumber in imgNumbers` loop of
`importFile`: total `saveCollection` invocations, prints in order, the final
value of the `done` counter (the loop's only counter), and the per-image ROI
lists it constructed, keyed by HDF5 image number. -/
structure ImportResult where
  saveCalls : Nat
  events : List Event
  done : Nat
  allRois : List (Nat × List Roi)
deriving DecidableEq

/-- The main loop of `importFile` over the `imgNumbers` dict (insertion
order): increment `done`, look the position up in `imgIds`, either build that
image's ROIs and call `_saveROIs` (with `None` for the update service under
`--dry-run`) or print the could-not-map warning, then print progress. -/
def importLoop (imgIds : List (String × Nat)) (objs : List ObjectsRow)
    (dryRun : Bool) (getFails saveFails : Nat → Bool) (total : Nat) :
    List (Nat × String) → Nat → ImportResult
  | [], d0 => ⟨0, [], d0, []⟩
  | (n, pos) :: rest, d0 =>
    let done := d0 + 1
    match dictLookup imgIds pos with
    | some imgId =>
      let rois := roisForImage objs n
      let sr := _saveROIs rois imgId (getFails imgId) (saveFails imgId) (!dryRun)
      let tail := importLoop imgIds objs dryRun getFails saveFails total rest done
      ⟨sr.saveCalls + tail.saveCalls,
       sr.events ++ (Event.progress done total :: tail.events),
       tail.done,
       (n, rois) :: tail.allRois⟩
    | none =>
      let tail := importLoop imgIds objs dryRun getFails saveFails total rest done
      ⟨tail.saveCalls,
       Event.unmappedWarning pos :: Event.progress done total :: tail.events,
       tail.done,
       tail.allRois⟩

/-- A pytables file-handle operation (`open_file(path, mode)` / `close()`). -/
inductive H5Op where
  | opened (mode : String)
  | closed
deriving DecidableEq

/-- Is the operation an `open_file`? -/
def H5Op.isOpen : H5Op → Bool
  | .opened _ => true
  | .closed => false

/-- Is the operation a `close`? -/
def H5Op.isClose : H5Op → Bool
  | .closed => true
  | .opened _ => false

/-- The whole `importFile` command: resolve remote ids (before any file is
opened), scan `/Images` (opened `"r"`, closed in `finally` whether or not the
scan raises), then open the file in `"a"` mode, create the `ImageNumber`
index when absent (persisting it in the file), run the main loop, and close
in `finally`. Returns the resulting file state and loop outcome (`none` when
an uncaught exception propagates) together with the handle-operation trace. -/
def importFileRun (remoteEntries : List (Nat × String)) (f : H5File)
    (dryRun : Bool) (getFails saveFails : Nat → Bool) :
    Option (H5File × ImportResult) × List H5Op :=
  match _mapImagePositionToId remoteEntries [] with
  | none => (none, [])
  | some imgIds =>
    match _mapImageNumberToPosition f.images [] with
    | none => (none, [H5Op.opened "r", H5Op.closed])
    | some imgNumbers =>
      let f' := if f.imageNumberIndexed then f else { f with imageNumberIndexed := true }
      let r := importLoop imgIds f.objects dryRun getFails saveFails
        imgNumbers.length imgNumbers 0
      (some (f', r), [H5Op.opened "r", H5Op.closed, H5Op.opened "a", H5Op.closed])

/-- What `process(args)` dispatches to. -/
inductive ProcessOutcome where
  | die (code : Nat) (msg : String)
  | ranImport
  | ranRemove
  | noop
deriving DecidableEq

/-- The `choices` tuple of the `command` positional argument in
`_configure`. -/
def commandChoices : List String := ["import", "remove"]

/-- Model of `process`: die with code 100 when no command was given, otherwise
dispatch on the command string. -/
def process (command : Option String) : ProcessOutcome :=
  match command with
  | none => .die 100 "No command provided"
  | some c =>
    if c = "import" then .ranImport
    else if c = "remove" then .ranRemove
    else .noop

/-- How many `saveCollection` calls a real (non-dry) run makes: one per
image whose position maps and whose `queryService.get` does not raise. -/
def realSaveCount (imgIds : List (String × Nat)) (gf : Nat → Bool) :
    List (Nat × String) → Nat
  | [] => 0
  | (_, pos) :: rest =>
    (match dictLookup imgIds pos with
     | some imgId => if gf imgId then 0 else 1
     | none => 0) + realSaveCount imgIds gf rest

/-! ## Helper lemmas -/

theorem dictLookup_dictInsert_self {α β : Type} [DecidableEq α]
    (d : List (α × β)) (k : α) (v : β) :
    dictLookup (dictInsert d k v) k = some v := by
  induction d with
  | nil => simp [dictInsert, dictLookup]
  | cons hd tl ih =>
    obtain ⟨k', v'⟩ := hd
    by_cases h : k' = k
    · simp [dictInsert, dictLookup, h]
    · simp [dictInsert, dictLookup, h, ih]

theorem dictLookup_dictInsert_ne {α β : Type} [DecidableEq α]
    (d : List (α × β)) (k' k : α) (v : β) (h : k' ≠ k) :
    dictLookup (dictInsert d k' v) k = dictLookup d k := by
  induction d with
  | nil => simp [dictInsert, dictLookup, h]
  | cons hd tl ih =>
    obtain ⟨k'', v''⟩ := hd
    show dictLookup (if k'' = k' then (k', v) :: tl else (k'', v'') :: dictInsert tl k' v) k = _
    by_cases h2 : k'' = k'
    · rw [if_pos h2]
      subst h2
      simp [dictLookup, h]
    · rw [if_neg h2]
      by_cases h3 : k'' = k
      · simp [dictLookup, h3]
      · simp [dictLookup, h3, ih]

theorem mapImagePositionToId_append (xs ys : List (Nat × String)) :
    ∀ d, _mapImagePositionToId (xs ++ ys) d =
      match _mapImagePositionToId xs d with
      | some d' => _mapImagePositionToId ys d'
      | none => none := by
  induction xs with
  | nil => intro d; simp [_mapImagePositionToId]
  | cons hd tl ih =>
    intro d
    obtain ⟨imgId, imgName⟩ := hd
    cases hp : parseImageName imgName with
    | none => simp [_mapImagePositionToId, hp]
    | some t =>
      obtain ⟨p, w, f⟩ := t
      simp [_mapImagePositionToId, hp, ih]

theorem mapImagePositionToId_lookup_of_no_key (K : String) :
    ∀ (post : List (Nat × String)) (d dic : List (String × Nat)),
      (∀ e ∈ post, ∀ p' w' f', parseImageName e.2 = some (p', w', f') →
        posKeyFmt p' w' f' ≠ K) →
      _mapImagePositionToId post d = some dic →
      dictLookup dic K = dictLookup d K := by
  intro post
  induction post with
  | nil =>
    intro d dic _ hrun
    simp [_mapImagePositionToId] at hrun
    simp [hrun]
  | cons hd tl ih =>
    intro d dic hkeys hrun
    obtain ⟨imgId, imgName⟩ := hd
    cases hp : parseImageName imgName with
    | none => simp [_mapImagePositionToId, hp] at hrun
    | some t =>
      obtain ⟨p, w, f⟩ := t
      simp only [_mapImagePositionToId, hp] at hrun
      have hne : posKeyFmt p w f ≠ K :=
        hkeys (imgId, imgName) (by simp) p w f hp
      have htl : ∀ e ∈ tl, ∀ p' w' f', parseImageName e.2 = some (p', w', f') →
          posKeyFmt p' w' f' ≠ K := by
        intro e he
        exact hkeys e (by simp [he])
      rw [ih _ dic htl hrun, dictLookup_dictInsert_ne _ _ _ _ hne]

theorem digitsToNatAux_eq_foldl :
    ∀ (ds : List Char) (acc : Nat), (∀ c ∈ ds, c.isDigit) →
      digitsToNatAux ds acc =
        some (ds.foldl (fun a c => a * 10 + (c.toNat - '0'.toNat)) acc) := by
  intro ds
  induction ds with
  | nil => intro acc _; rfl
  | cons c rest ih =>
    intro acc h
    have hc : c.isDigit := h c (by simp)
    simp only [digitsToNatAux, hc, if_true, List.foldl]
    exact ih _ (fun c' hc' => h c' (by simp [hc']))

theorem digitsToNat_eq_digitsVal (ds : List Char) (h1 : ds ≠ [])
    (h2 : ∀ c ∈ ds, c.isDigit) : digitsToNat ds = some (digitsVal ds) := by
  cases ds with
  | nil => exact absurd rfl h1
  | cons c rest => exact digitsToNatAux_eq_foldl (c :: rest) 0 h2

theorem processObjectRows_eq_bind (rows : List ObjectsRow) :
    ∀ acc, processObjectRows rows acc = acc ++ rows.flatMap rowRois := by
  induction rows with
  | nil => intro acc; simp [processObjectRows]
  | cons row rest ih =>
    intro acc
    simp only [processObjectRows, ih, List.flatMap_cons]
    simp [rowRois, List.append_assoc]

theorem roisForImage_eq_bind (objs : List ObjectsRow) (n : Nat) :
    roisForImage objs n =
      (objs.filter (fun r => r.imageNumber == n)).flatMap rowRois := by
  simp [roisForImage, processObjectRows_eq_bind]

theorem importLoop_allRois_mem (imgIds : List (String × Nat))
    (objs : List ObjectsRow) (dryRun : Bool) (gf sf : Nat → Bool) (total : Nat) :
    ∀ (imgNumbers : List (Nat × String)) (d0 : Nat) (e : Nat × List Roi),
      e ∈ (importLoop imgIds objs dryRun gf sf total imgNumbers d0).allRois →
      e.2 = roisForImage objs e.1 := by
  intro imgNumbers
  induction imgNumbers with
  | nil => intro d0 e he; simp [importLoop] at he
  | cons hd tl ih =>
    intro d0 e he
    obtain ⟨n, pos⟩ := hd
    cases hl : dictLookup imgIds pos with
    | some imgId =>
      simp only [importLoop, hl] at he
      rcases List.mem_cons.mp he with h | h
      · subst h; rfl
      · exact ih _ e h
    | none =>
      simp only [importLoop, hl] at he
      exact ih _ e he

/-! ## Claims -/

/-- Claim C1 (corrected): the claim asserts the resolver-side Position Key for
remote name `"PlateX [Well A03, Field 2]"` equals `"PlateX | A3 | 2"`.  It
does not: `_mapImagePositionToId` applies no well normalization, so the key
is `"PlateX | A03 | 2"`. -/
theorem c1_counterexample :
    resolverPosKey "PlateX [Well A03, Field 2]" = some "PlateX | A03 | 2" ∧
    (some "PlateX | A03 | 2" : Option String) ≠ some "PlateX | A3 | 2" := by
  constructor
  · decide
  · decide

/-- Claim C1 (amended): the resolver builds its Position Key from the parsed
name components verbatim, with no normalization; the two derivation paths
yield byte-identical keys exactly when the remote name's well code already
has no leading zero, i.e. equals the zero-stripped HDF5 well code.  In
particular remote name `"PlateX [Well A3, Field 2]"` and HDF5 row
`(PlateX, A03, 2)` both yield `"PlateX | A3 | 2"`. -/
theorem c1_positionKey_symmetry :
    (∀ name p w f, parseImageName name = some (p, w, f) →
      resolverPosKey name = some (posKeyFmt p w f)) ∧
    (∀ (row : ImagesRow) (name w : String),
      normalizeWell row.well = some w →
      parseImageName name = some (row.plateId, w, toString row.field) →
      resolverPosKey name = hdf5PosKey row) ∧
    resolverPosKey "PlateX [Well A3, Field 2]" = some "PlateX | A3 | 2" ∧
    hdf5PosKey ⟨1, "PlateX", "A03", 2⟩ = some "PlateX | A3 | 2" := by
  refine ⟨?_, ?_, by decide, by decide⟩
  · intro name p w f h
    simp [resolverPosKey, h]
  · intro row name w hn hp
    simp [resolverPosKey, hdf5PosKey, hp, hn]

/-- Claim C1 witness: the amended symmetry at the concrete joining pair. -/
theorem c1_positionKey_symmetry_witness :
    resolverPosKey "PlateX [Well A3, Field 2]" =
      hdf5PosKey ⟨1, "PlateX", "A03", 2⟩ :=
  c1_positionKey_symmetry.2.1 ⟨1, "PlateX", "A03", 2⟩
    "PlateX [Well A3, Field 2]" "A3" (by decide) (by decide)

/-- Claim C2 (corrected): the claim asserts exactly one leading zero is
stripped, so `"A003"` would become `"A03"`.  The code runs the digit run
through `int(...)` and reformats it, so `"A003"` becomes `"A3"`. -/
theorem c2_counterexample :
    normalizeWell "A003" = some "A3" ∧
    (some "A3" : Option String) ≠ some "A03" := by
  constructor
  · decide
  · decide

/-- Claim C2 (amended): normalization strips **all** leading zeros of the digit
run, not exactly one (`"A03"` → `"A3"`, `"B10"` → `"B10"`, `"A003"` → `"A3"`):
any two codes with the same letter and the same numeric digit-run value
normalize identically. -/
theorem c2_normalizeWell_strips_all_zeros :
    normalizeWell "A03" = some "A3" ∧
    normalizeWell "B10" = some "B10" ∧
    normalizeWell "A003" = some "A3" ∧
    ∀ (a : Char) (ds1 ds2 : List Char), ds1 ≠ [] → ds2 ≠ [] →
      (∀ c ∈ ds1, c.isDigit) → (∀ c ∈ ds2, c.isDigit) →
      digitsVal ds1 = digitsVal ds2 →
      normalizeWell (String.mk (a :: ds1)) = normalizeWell (String.mk (a :: ds2)) := by
  refine ⟨by decide, by decide, by decide, ?_⟩
  intro a ds1 ds2 h1 h2 hd1 hd2 hv
  show (digitsToNat ds1).map _ = (digitsToNat ds2).map _
  rw [digitsToNat_eq_digitsVal ds1 h1 hd1, digitsToNat_eq_digitsVal ds2 h2 hd2, hv]

/-- Claim C2 witness: `"A03"` and `"A3"` normalize to the same code. -/
theorem c2_normalizeWell_strips_all_zeros_witness :
    normalizeWell (String.mk ['A', '0', '3']) =
      normalizeWell (String.mk ['A', '3']) :=
  c2_normalizeWell_strips_all_zeros.2.2.2 'A' ['0', '3'] ['3']
    (by decide) (by decide) (by decide) (by decide) (by decide)

/-- Claim C10 (confirmed): when several projection entries parse to the same
Position Key, `_mapImagePositionToId` silently overwrites: the returned map
binds the key to the image id of the last such entry in enumeration order. -/
theorem c10_last_duplicate_wins (pre post : List (Nat × String)) (imgId : Nat)
    (name p w f : String) (dic : List (String × Nat))
    (hp : parseImageName name = some (p, w, f))
    (hpost : ∀ e ∈ post, ∀ p' w' f', parseImageName e.2 = some (p', w', f') →
      posKeyFmt p' w' f' ≠ posKeyFmt p w f)
    (hrun : _mapImagePositionToId (pre ++ (imgId, name) :: post) [] = some dic) :
    dictLookup dic (posKeyFmt p w f) = some imgId := by
  rw [mapImagePositionToId_append] at hrun
  cases h1 : _mapImagePositionToId pre [] with
  | none => rw [h1] at hrun; simp at hrun
  | some d1 =>
    rw [h1] at hrun
    simp only [_mapImagePositionToId, hp] at hrun
    rw [mapImagePositionToId_lookup_of_no_key (posKeyFmt p w f) post _ dic hpost hrun]
    exact dictLookup_dictInsert_self d1 (posKeyFmt p w f) imgId

/-- Claim C10 witness: two entries for well A1 of plate P; the second (id 7)
wins over the first (id 3); the unrelated entry for plate Q is unaffected. -/
theorem c10_last_duplicate_wins_witness :
    _mapImagePositionToId
      [(3, "P [Well A1, Field 1]"), (7, "P [Well A1, Field 1]"),
       (2, "Q [Well B1, Field 1]")] [] =
      some [("P | A1 | 1", 7), ("Q | B1 | 1", 2)] ∧
    dictLookup [("P | A1 | 1", 7), ("Q | B1 | 1", 2)] (posKeyFmt "P" "A1" "1") =
      some 7 := by
  constructor
  · decide
  · exact c10_last_duplicate_wins [(3, "P [Well A1, Field 1]")]
      [(2, "Q [Well B1, Field 1]")] 7 "P [Well A1, Field 1]" "P" "A1" "1"
      [("P | A1 | 1", 7), ("Q | B1 | 1", 2)]
      (by decide)
      (by
        intro e he p' w' f' hpe
        simp only [List.mem_singleton] at he
        subst he
        rw [show parseImageName "Q [Well B1, Field 1]" = some ("Q", "B1", "1")
          from by decide] at hpe
        have h := Option.some.inj hpe
        injection h with h1 h23
        injection h23 with h2 h3
        rw [← h1, ← h2, ← h3]
        decide)
      (by decide)

/-- Claim C3 (confirmed): every `/Objects` row of a successfully mapped image
yields exactly 3 ROIs — nucleus, cell, cytoplasm, in that order — each with
exactly one point shape at `theZ = 0`, `theT = 0`, with the matching label
and the row's coordinates copied unmodified; and every per-image ROI list
built by the import loop is exactly this construction. -/
theorem c3_three_rois_per_row (objs : List ObjectsRow) (n : Nat) :
    roisForImage objs n =
      (objs.filter (fun r => r.imageNumber == n)).flatMap rowRois ∧
    (roisForImage objs n).length =
      3 * (objs.filter (fun r => r.imageNumber == n)).length ∧
    (∀ row : ObjectsRow, rowRois row =
      [⟨[⟨row.nucleiX, row.nucleiY, 0, 0, "Nucleus"⟩]⟩,
       ⟨[⟨row.cellsX, row.cellsY, 0, 0, "Cell"⟩]⟩,
       ⟨[⟨row.cytoX, row.cytoY, 0, 0, "Cytoplasm"⟩]⟩] ∧
      (rowRois row).length = 3) ∧
    (∀ roi ∈ roisForImage objs n, roi.shapes.length = 1 ∧
      ∀ s ∈ roi.shapes, s.theZ = 0 ∧ s.theT = 0 ∧
        (s.textValue = "Nucleus" ∨ s.textValue = "Cell" ∨
         s.textValue = "Cytoplasm")) ∧
    ∀ (imgIds : List (String × Nat)) (dryRun : Bool) (gf sf : Nat → Bool)
      (total : Nat) (imgNumbers : List (Nat × String)) (d0 : Nat)
      (e : Nat × List Roi),
      e ∈ (importLoop imgIds objs dryRun gf sf total imgNumbers d0).allRois →
      e.2 = roisForImage objs e.1 := by
  refine ⟨roisForImage_eq_bind objs n, ?_, fun row => ⟨rfl, rfl⟩, ?_, ?_⟩
  · rw [roisForImage_eq_bind]
    induction objs.filter (fun r => r.imageNumber == n) with
    | nil => simp
    | cons row rest ih =>
      simp only [List.flatMap_cons, List.length_append, List.length_cons,
        List.length_nil, ih, rowRois]
      omega
  · intro roi hroi
    rw [roisForImage_eq_bind] at hroi
    obtain ⟨row, _, hmem⟩ := List.mem_flatMap.mp hroi
    simp only [rowRois, List.mem_cons, List.mem_singleton] at hmem
    rcases hmem with h | h | h | h
    all_goals first
      | (subst h; exact ⟨rfl, by intro s hs; simp at hs; subst hs; simp⟩)
      | simp at h
  · intro imgIds dryRun gf sf total imgNumbers d0 e he
    exact importLoop_allRois_mem imgIds objs dryRun gf sf total imgNumbers d0 e he

/-- Claim C3 witness: the construction evaluated on a one-row table. -/
theorem c3_three_rois_per_row_witness :
    roisForImage [⟨5, 1, 2, 3, 4, 5, 6⟩] 5 =
      [⟨[⟨1, 2, 0, 0, "Nucleus"⟩]⟩, ⟨[⟨3, 4, 0, 0, "Cell"⟩]⟩,
       ⟨[⟨5, 6, 0, 0, "Cytoplasm"⟩]⟩] ∧
    (roisForImage [⟨5, 1, 2, 3, 4, 5, 6⟩] 5).length = 3 * 1 ∧
    ∀ roi ∈ roisForImage [⟨5, 1, 2, 3, 4, 5, 6⟩] 5, roi.shapes.length = 1 :=
  ⟨by decide,
   (c3_three_rois_per_row [⟨5, 1, 2, 3, 4, 5, 6⟩] 5).2.1.trans (by decide),
   fun roi hroi =>
     ((c3_three_rois_per_row [⟨5, 1, 2, 3, 4, 5, 6⟩] 5).2.2.2.1 roi hroi).1⟩

/-- Claim C4 (confirmed): with the remote save never raising, a `--dry-run`
invocation builds the same per-image ROI lists, runs the same loop, and
prints the same per-image ROI counts as a real run, while making zero
`updateService.saveCollection` calls; the real run makes one call per
fetchable mapped image. -/
theorem c4_dry_run_refinement (imgIds : List (String × Nat))
    (objs : List ObjectsRow) (gf sf : Nat → Bool) (total : Nat)
    (imgNumbers : List (Nat × String)) (d0 : Nat) (h : ∀ i, sf i = false) :
    (importLoop imgIds objs true gf sf total imgNumbers d0).allRois =
      (importLoop imgIds objs false gf sf total imgNumbers d0).allRois ∧
    (importLoop imgIds objs true gf sf total imgNumbers d0).done =
      (importLoop imgIds objs false gf sf total imgNumbers d0).done ∧
    (importLoop imgIds objs true gf sf total imgNumbers d0).events.filterMap savedCount =
      (importLoop imgIds objs false gf sf total imgNumbers d0).events.filterMap savedCount ∧
    (importLoop imgIds objs true gf sf total imgNumbers d0).saveCalls = 0 ∧
    (importLoop imgIds objs false gf sf total imgNumbers d0).saveCalls =
      realSaveCount imgIds gf imgNumbers := by
  induction imgNumbers generalizing d0 with
  | nil => simp [importLoop, realSaveCount]
  | cons hd tl ih =>
    obtain ⟨n, pos⟩ := hd
    obtain ⟨ih1, ih2, ih3, ih4, ih5⟩ := ih (d0 + 1)
    cases hl : dictLookup imgIds pos with
    | none =>
      simp only [importLoop, hl, realSaveCount]
      refine ⟨ih1, ih2, ?_, ?_, ?_⟩
      · simp [List.filterMap_cons, savedCount, ih3]
      · simpa using ih4
      · simpa using ih5
    | some imgId =>
      have hsf := h imgId
      simp only [importLoop, hl, realSaveCount]
      by_cases hg : gf imgId
      · refine ⟨by simp [ih1], by simp [ih2], ?_, ?_, ?_⟩
        · simp [_saveROIs, hg, hsf, List.filterMap_append, List.filterMap_cons,
            savedCount, ih3]
        · simp [_saveROIs, hg, hsf, ih4]
        · simp [_saveROIs, hg, hsf, ih5]
      · refine ⟨by simp [ih1], by simp [ih2], ?_, ?_, ?_⟩
        · simp [_saveROIs, hg, hsf, List.filterMap_append, List.filterMap_cons,
            savedCount, ih3]
        · simp [_saveROIs, hg, hsf, ih4]
        · simp [_saveROIs, hg, hsf, ih5]

/-- Claim C4 witness: a one-image run, mapped and fetchable. -/
theorem c4_dry_run_refinement_witness :
    (importLoop [("P | A1 | 1", 9)] [⟨1, 1, 2, 3, 4, 5, 6⟩] true
        (fun _ => false) (fun _ => false) 1 [(1, "P | A1 | 1")] 0).saveCalls = 0 ∧
    (importLoop [("P | A1 | 1", 9)] [⟨1, 1, 2, 3, 4, 5, 6⟩] false
        (fun _ => false) (fun _ => false) 1 [(1, "P | A1 | 1")] 0).saveCalls =
      realSaveCount [("P | A1 | 1", 9)] (fun _ => false) [(1, "P | A1 | 1")] :=
  ⟨(c4_dry_run_refinement [("P | A1 | 1", 9)] [⟨1, 1, 2, 3, 4, 5, 6⟩]
      (fun _ => false) (fun _ => false) 1 [(1, "P | A1 | 1")] 0
      (fun _ => rfl)).2.2.2.1,
   (c4_dry_run_refinement [("P | A1 | 1", 9)] [⟨1, 1, 2, 3, 4, 5, 6⟩]
      (fun _ => false) (fun _ => false) 1 [(1, "P | A1 | 1")] 0
      (fun _ => rfl)).2.2.2.2⟩

/-- Distinct dict keys determine values: used to reason about the
`imgNumbers` dict, whose keys are unique by construction. -/
theorem mem_eq_of_keys_nodup {α β : Type} {l : List (α × β)}
    (hn : (l.map Prod.fst).Nodup) {n : α} {p1 p2 : β}
    (h1 : (n, p1) ∈ l) (h2 : (n, p2) ∈ l) : p1 = p2 := by
  induction l with
  | nil => simp at h1
  | cons hd tl ih =>
    obtain ⟨m, q⟩ := hd
    simp only [List.map_cons, List.nodup_cons] at hn
    rcases List.mem_cons.mp h1 with e1 | e1 <;> rcases List.mem_cons.mp h2 with e2 | e2
    · injection e1 with a1 b1
      injection e2 with a2 b2
      rw [b1, b2]
    · injection e1 with a1 b1
      subst a1
      exact absurd (List.mem_map_of_mem Prod.fst e2) hn.1
    · injection e2 with a2 b2
      subst a2
      exact absurd (List.mem_map_of_mem Prod.fst e1) hn.1
    · exact ih hn.2 e1 e2

/-- Claim C6 (corrected): the claim's "increments a skipped counter by 3" names
a counter the code does not have.  This concrete run — one HDF5 image whose
position has no remote match — shows the complete final loop state: 0 ROI
lists, 0 save calls, one could-not-map warning plus the progress line, and
the loop's only counter `done` at 1 (incremented by 1, not 3). -/
theorem c6_counterexample :
    importLoop [] [] false (fun _ => false) (fun _ => false) 1
        [(1, "P | A1 | 1")] 0 =
      ⟨0, [Event.unmappedWarning "P | A1 | 1", Event.progress 1 1], 1, []⟩ ∧
    (importLoop [] [] false (fun _ => false) (fun _ => false) 1
        [(1, "P | A1 | 1")] 0).done ≠ 3 := by
  constructor
  · decide
  · decide

/-- Claim C6 (amended): a row whose image-number is absent from the Images
mapping, or whose Position Key has no remote entry, contributes 0 ROI
records; each unmapped position produces one warning print; there is no
skipped counter — the loop's only counter `done` advances by 1 per HDF5
image whether or not it maps.  Formally: every per-image ROI list the loop
emits belongs to an image number whose position is mapped; unmapped
positions yield a warning and (for distinct image numbers) no ROI list; and
`done` ends at `d0 + imgNumbers.length`. -/
theorem c6_unmapped_rows (imgIds : List (String × Nat)) (objs : List ObjectsRow)
    (dryRun : Bool) (gf sf : Nat → Bool) (total : Nat)
    (imgNumbers : List (Nat × String)) (d0 : Nat) :
    (∀ e ∈ (importLoop imgIds objs dryRun gf sf total imgNumbers d0).allRois,
      ∃ pos, (e.1, pos) ∈ imgNumbers ∧ (dictLookup imgIds pos).isSome) ∧
    (∀ n pos, (n, pos) ∈ imgNumbers → dictLookup imgIds pos = none →
      Event.unmappedWarning pos ∈
        (importLoop imgIds objs dryRun gf sf total imgNumbers d0).events) ∧
    (importLoop imgIds objs dryRun gf sf total imgNumbers d0).done =
      d0 + imgNumbers.length ∧
    (∀ n pos, (n, pos) ∈ imgNumbers → dictLookup imgIds pos = none →
      (imgNumbers.map Prod.fst).Nodup →
      ∀ e ∈ (importLoop imgIds objs dryRun gf sf total imgNumbers d0).allRois,
        e.1 ≠ n) := by
  have main : ∀ (l : List (Nat × String)) (d0 : Nat),
      (∀ e ∈ (importLoop imgIds objs dryRun gf sf total l d0).allRois,
        ∃ pos, (e.1, pos) ∈ l ∧ (dictLookup imgIds pos).isSome) ∧
      (∀ n pos, (n, pos) ∈ l → dictLookup imgIds pos = none →
        Event.unmappedWarning pos ∈
          (importLoop imgIds objs dryRun gf sf total l d0).events) ∧
      (importLoop imgIds objs dryRun gf sf total l d0).done = d0 + l.length := by
    intro l
    induction l with
    | nil => intro d0; exact ⟨by simp [importLoop], by simp, by simp [importLoop]⟩
    | cons hd tl ih =>
      intro d0
      obtain ⟨n, pos⟩ := hd
      obtain ⟨ih1, ih2, ih3⟩ := ih (d0 + 1)
      cases hl : dictLookup imgIds pos with
      | some imgId =>
        refine ⟨?_, ?_, ?_⟩
        · intro e he
          simp only [importLoop, hl] at he
          rcases List.mem_cons.mp he with h | h
          · exact ⟨pos, by simp [h], by simp [hl]⟩
          · obtain ⟨pos', hmem, hsome⟩ := ih1 e h
            exact ⟨pos', by simp [hmem], hsome⟩
        · intro m pos' hmem hnone
          rcases List.mem_cons.mp hmem with h | h
          · injection h with h1 h2
            subst h2
            rw [hnone] at hl
            exact Option.noConfusion hl
          · simp only [importLoop, hl]
            simp [List.mem_append, ih2 m pos' h hnone]
        · simp only [importLoop, hl, ih3, List.length_cons]
          omega
      | none =>
        refine ⟨?_, ?_, ?_⟩
        · intro e he
          simp only [importLoop, hl] at he
          obtain ⟨pos', hmem, hsome⟩ := ih1 e he
          exact ⟨pos', by simp [hmem], hsome⟩
        · intro m pos' hmem hnone
          simp only [importLoop, hl]
          rcases List.mem_cons.mp hmem with h | h
          · injection h with h1 h2
            subst h2
            simp
          · simp [ih2 m pos' h hnone]
        · simp only [importLoop, hl, ih3, List.length_cons]
          omega
  obtain ⟨m1, m2, m3⟩ := main imgNumbers d0
  refine ⟨m1, m2, m3, ?_⟩
  intro n pos hmem hnone hnd e he hne
  obtain ⟨pos', hmem', hsome⟩ := m1 e he
  rw [hne] at hmem'
  rw [mem_eq_of_keys_nodup hnd hmem hmem'] at hnone
  rw [hnone] at hsome
  simp at hsome

/-- Claim C6 witness: the amended statement at the counterexample's input. -/
theorem c6_unmapped_rows_witness :
    Event.unmappedWarning "P | A1 | 1" ∈
      (importLoop [] [] false (fun _ => false) (fun _ => false) 1
        [(1, "P | A1 | 1")] 0).events ∧
    (importLoop [] [] false (fun _ => false) (fun _ => false) 1
        [(1, "P | A1 | 1")] 0).done = 0 + 1 :=
  ⟨(c6_unmapped_rows [] [] false (fun _ => false) (fun _ => false) 1
      [(1, "P | A1 | 1")] 0).2.1 1 "P | A1 | 1" (by decide) (by decide),
   ((c6_unmapped_rows [] [] false (fun _ => false) (fun _ => false) 1
      [(1, "P | A1 | 1")] 0).2.2.1).trans (by decide)⟩

/-- Claim C7 (confirmed): when `saveCollection` raises for one image's batch,
`_saveROIs` makes exactly the one failed call and prints the warning naming
that image; and the import loop's behaviour on every other image — save
calls, warnings, progress, `done`, constructed ROIs — is unchanged, with no
retry and no accumulation: two runs whose environments differ only in
whether image `k`'s save fails agree on everything except the one print for
image `k`. -/
theorem c7_save_failure_isolated (rois : List Roi) (k : Nat) :
    _saveROIs rois k false true true = ⟨1, [Event.saveWarning k]⟩ ∧
    ∀ (imgIds : List (String × Nat)) (objs : List ObjectsRow)
      (gf sf1 sf2 : Nat → Bool) (total : Nat)
      (imgNumbers : List (Nat × String)) (d0 : Nat),
      (∀ i, i ≠ k → sf1 i = sf2 i) →
      (importLoop imgIds objs false gf sf1 total imgNumbers d0).saveCalls =
        (importLoop imgIds objs false gf sf2 total imgNumbers d0).saveCalls ∧
      (importLoop imgIds objs false gf sf1 total imgNumbers d0).done =
        (importLoop imgIds objs false gf sf2 total imgNumbers d0).done ∧
      (importLoop imgIds objs false gf sf1 total imgNumbers d0).allRois =
        (importLoop imgIds objs false gf sf2 total imgNumbers d0).allRois ∧
      (importLoop imgIds objs false gf sf1 total imgNumbers d0).events.filter
          (eventNotForImage k) =
        (importLoop imgIds objs false gf sf2 total imgNumbers d0).events.filter
          (eventNotForImage k) := by
  refine ⟨rfl, ?_⟩
  intro imgIds objs gf sf1 sf2 total imgNumbers d0 h
  induction imgNumbers generalizing d0 with
  | nil => simp [importLoop]
  | cons hd tl ih =>
    obtain ⟨n, pos⟩ := hd
    obtain ⟨ih1, ih2, ih3, ih4⟩ := ih (d0 + 1)
    cases hl : dictLookup imgIds pos with
    | none =>
      simp only [importLoop, hl]
      refine ⟨by simpa using ih1, ih2, ih3, ?_⟩
      simp [List.filter_cons, eventNotForImage, eventImgId, ih4]
    | some imgId =>
      by_cases hk : imgId = k
      · subst hk
        simp only [importLoop, hl]
        by_cases hg : gf imgId
        · refine ⟨by simp [_saveROIs, hg, ih1], by simp [ih2], by simp [ih3], ?_⟩
          simp [_saveROIs, hg, List.filter_append, List.filter_cons,
            eventNotForImage, eventImgId, ih4]
        · refine ⟨?_, by simp [ih2], by simp [ih3], ?_⟩
          · cases hs1 : sf1 imgId <;> cases hs2 : sf2 imgId <;>
              simp [_saveROIs, hg, hs1, hs2, ih1]
          · cases hs1 : sf1 imgId <;> cases hs2 : sf2 imgId <;>
              simp [_saveROIs, hg, hs1, hs2, List.filter_append, List.filter_cons,
                eventNotForImage, eventImgId, ih4]
      · have hs : sf1 imgId = sf2 imgId := h imgId hk
        simp only [importLoop, hl, hs]
        refine ⟨by simp [ih1], by simp [ih2], by simp [ih3], ?_⟩
        simp [List.filter_append, List.filter_cons, ih4]

/-- Claim C7 witness: image 9's save fails in one environment and succeeds in
the other; call counts on a concrete run coincide. -/
theorem c7_save_failure_isolated_witness :
    _saveROIs [] 9 false true true = ⟨1, [Event.saveWarning 9]⟩ ∧
    (importLoop [("P | A1 | 1", 9)] [] false (fun _ => false)
        (fun i => i == 9) 1 [(1, "P | A1 | 1")] 0).saveCalls =
      (importLoop [("P | A1 | 1", 9)] [] false (fun _ => false)
        (fun _ => false) 1 [(1, "P | A1 | 1")] 0).saveCalls :=
  ⟨(c7_save_failure_isolated [] 9).1,
   ((c7_save_failure_isolated [] 9).2 [("P | A1 | 1", 9)] []
      (fun _ => false) (fun i => i == 9) (fun _ => false) 1
      [(1, "P | A1 | 1")] 0
      (fun i hi => by simp [hi])).1⟩

/-- Claim C5 (corrected): the claim says the input HDF5 file is not modified,
but `importFile` opens it in append mode and, when `/Objects` has no index on
`ImageNumber`, creates one — a change pytables persists in the file.  On a
file without the index, the run returns a file state different from the
input. -/
theorem c5_counterexample :
    (importFileRun [] ⟨[], [], false⟩ false (fun _ => false) (fun _ => false)).1 =
      some (⟨[], [], true⟩, ⟨0, [], 0, []⟩) ∧
    (⟨[], [], true⟩ : H5File) ≠ ⟨[], [], false⟩ := by
  constructor
  · decide
  · decide

/-- Claim C5 (amended): the only file modification an import run can make is
creating the `ImageNumber` index on `/Objects` when it is absent; the row
data of both tables is never changed, and a file that already has the index
is returned untouched.  Beyond that, the run's artifacts are the remote ROI
writes and stdout prints captured in the `ImportResult`. -/
theorem c5_only_index_persisted (remoteEntries : List (Nat × String))
    (f : H5File) (dryRun : Bool) (gf sf : Nat → Bool) (f' : H5File)
    (r : ImportResult)
    (h : (importFileRun remoteEntries f dryRun gf sf).1 = some (f', r)) :
    f'.images = f.images ∧ f'.objects = f.objects ∧
    f'.imageNumberIndexed = true ∧
    (f.imageNumberIndexed = true → f' = f) := by
  unfold importFileRun at h
  cases h1 : _mapImagePositionToId remoteEntries [] with
  | none => rw [h1] at h; simp at h
  | some imgIds =>
    rw [h1] at h
    cases h2 : _mapImageNumberToPosition f.images [] with
    | none => rw [h2] at h; simp at h
    | some imgNumbers =>
      rw [h2] at h
      simp only [Option.some.injEq, Prod.mk.injEq] at h
      obtain ⟨hf, _⟩ := h
      subst hf
      cases hidx : f.imageNumberIndexed with
      | true => simp [hidx]
      | false => simp [hidx]

/-- Claim C5 witness: an already-indexed file comes back unchanged. -/
theorem c5_only_index_persisted_witness :
    (⟨[], [], true⟩ : H5File).images = (⟨[], [], true⟩ : H5File).images ∧
    (⟨[], [], true⟩ : H5File).objects = (⟨[], [], true⟩ : H5File).objects ∧
    (⟨[], [], true⟩ : H5File).imageNumberIndexed = true ∧
    ((⟨[], [], true⟩ : H5File).imageNumberIndexed = true →
      (⟨[], [], true⟩ : H5File) = ⟨[], [], true⟩) :=
  c5_only_index_persisted [] ⟨[], [], true⟩ false (fun _ => false)
    (fun _ => false) ⟨[], [], true⟩ ⟨0, [], 0, []⟩ (by decide)

/-- Claim C8 (corrected): the claim lists three accepted subcommands
`import`, `remove`, `parse`; the `choices` tuple in `_configure` has only
two — `"parse"` is rejected by the argument parser. -/
theorem c8_counterexample :
    "parse" ∉ commandChoices ∧ commandChoices.length = 2 := by
  constructor
  · decide
  · decide

/-- Claim C8 (amended): the positional `command` argument accepts exactly the
two subcommands `import` and `remove`; when no command is provided, `process`
dies with exit code 100, and it never dies when a command is present. -/
theorem c8_cli_commands :
    commandChoices = ["import", "remove"] ∧
    process none = ProcessOutcome.die 100 "No command provided" ∧
    ∀ (c : String) (code : Nat) (msg : String),
      process (some c) ≠ ProcessOutcome.die code msg := by
  refine ⟨rfl, rfl, ?_⟩
  intro c code msg
  by_cases h1 : c = "import"
  · simp [process, h1]
  · by_cases h2 : c = "remove"
    · simp [process, h1, h2]
    · simp [process, h1, h2]

/-- Claim C8 witness: `import` does not die. -/
theorem c8_cli_commands_witness :
    process (some "import") ≠ ProcessOutcome.die 100 "No command provided" :=
  c8_cli_commands.2.2 "import" 100 "No command provided"

/-- Claim C9 (confirmed): every handle opened during an import command is
closed: the handle trace is empty when the resolver raises before any open,
is exactly open-`"r"`/close when the `/Images` scan raises (the `finally`
closes the handle), is the two balanced pairs on a completed run, and in
every case has as many closes as opens, ending on a close. -/
theorem c9_handles_closed (remoteEntries : List (Nat × String)) (f : H5File)
    (dryRun : Bool) (gf sf : Nat → Bool) :
    (((importFileRun remoteEntries f dryRun gf sf).2.filter H5Op.isOpen).length =
      ((importFileRun remoteEntries f dryRun gf sf).2.filter H5Op.isClose).length) ∧
    (_mapImagePositionToId remoteEntries [] = none →
      (importFileRun remoteEntries f dryRun gf sf).2 = []) ∧
    (_mapImagePositionToId remoteEntries [] ≠ none →
      mapImageNumberToPosition f.images = none →
      (importFileRun remoteEntries f dryRun gf sf).2 =
        [H5Op.opened "r", H5Op.closed]) ∧
    ((importFileRun remoteEntries f dryRun gf sf).1.isSome →
      (importFileRun remoteEntries f dryRun gf sf).2 =
        [H5Op.opened "r", H5Op.closed, H5Op.opened "a", H5Op.closed]) ∧
    ((importFileRun remoteEntries f dryRun gf sf).2 ≠ [] →
      (importFileRun remoteEntries f dryRun gf sf).2.getLast? = some H5Op.closed) := by
  unfold importFileRun mapImageNumberToPosition
  cases h1 : _mapImagePositionToId remoteEntries [] with
  | none =>
    exact ⟨rfl, fun _ => rfl, fun hc _ => absurd rfl hc, by simp, by simp⟩
  | some imgIds =>
    cases h2 : _mapImageNumberToPosition f.images [] with
    | none =>
      refine ⟨rfl, fun hc => Option.noConfusion hc, fun _ _ => rfl, by simp, ?_⟩
      intro _
      rfl
    | some imgNumbers =>
      refine ⟨rfl, fun hc => Option.noConfusion hc,
        fun _ hc => Option.noConfusion hc, fun _ => rfl, ?_⟩
      intro _
      rfl

/-- Claim C9 witness: a run whose `/Images` scan raises (empty well code)
still closes its read handle, and a completed run closes both handles. -/
theorem c9_handles_closed_witness :
    (importFileRun [] ⟨[⟨1, "P", "", 1⟩], [], false⟩ false (fun _ => false)
      (fun _ => false)).2 = [H5Op.opened "r", H5Op.closed] ∧
    (importFileRun [] ⟨[], [], false⟩ false (fun _ => false)
      (fun _ => false)).2 =
      [H5Op.opened "r", H5Op.closed, H5Op.opened "a", H5Op.closed] :=
  ⟨(c9_handles_closed [] ⟨[⟨1, "P", "", 1⟩], [], false⟩ false (fun _ => false)
      (fun _ => false)).2.2.1 (by decide) (by decide),
   (c9_handles_closed [] ⟨[], [], false⟩ false (fun _ => false)
      (fun _ => false)).2.2.2.1 (by decide)⟩

end IDROI
